import Mathlib

/-!
Shallow embedding of the Antar USA hotel-translation relay server.

The repository holds two near-duplicate server variants:
  variant A = `src/server.js`
  variant B = `src/unnamed/part_000`

Both keep two in-memory maps: `activeRooms : roomId -> RoomData` and
`userRoles : socketId -> SessionInfo`.  The maps are embedded as functions
`String -> Option _`; JavaScript `Map.set` / `Map.delete` become pointwise
function updates, `Set` member sets become duplicate-free lists in
insertion order.

Socket handlers are embedded as pure functions from the current state (plus
oracle parameters standing for the awaited external collaborator results of
`transcribeOnce` / `translateText`) to the list of emitted events paired with
the successor state.  `io.to(room).emit` is recorded as `Emit.toRoom`,
`socket.emit` as `Emit.toSender`, `socket.to(room).emit` as `Emit.toOthers`,
and a `setTimeout` room-cleanup registration as `Emit.scheduleCleanup`.
Generated message ids and wall-clock timestamps are nondeterministic
environment values and are omitted from the event payloads; every other
payload field is kept.
-/

/-- JS `x || d` on a string: the empty string is falsy. -/
def jsOrS (s d : String) : String := if s = "" then d else s

/-- JS `x || d` where `x` is a possibly-undefined string. -/
def jsOrOS : Option String → String → String
  | none, d => d
  | some s, d => jsOrS s d

/-- JS `x || d` where `x` is a possibly-undefined number: `0` is falsy
(used by variant B for `stt.confidence || 0.95`). -/
def jsOrRat : Option ℚ → ℚ → ℚ
  | none, d => d
  | some c, d => if c = 0 then d else c

/-- Room metadata: `activeRooms` map values
(`hotelName`, member `users` set, `guestLanguage`; the `createdAt`
timestamp is an environment value and is not modelled). -/
structure RoomData where
  hotelName : String
  users : List String
  guestLanguage : Option String
  deriving DecidableEq

/-- Session info: `userRoles` map values `{ room, role, language }`. -/
structure SessionInfo where
  room : String
  role : String
  language : String
  deriving DecidableEq

/-- The whole mutable server state: both module-level maps. -/
structure ServerState where
  activeRooms : String → Option RoomData
  userRoles : String → Option SessionInfo

/-- `activeRooms.set(rid, rd)`. -/
def ServerState.setRoom (s : ServerState) (rid : String) (rd : RoomData) : ServerState :=
  { s with activeRooms := fun k => if k = rid then some rd else s.activeRooms k }

/-- `activeRooms.delete(rid)`. -/
def ServerState.delRoom (s : ServerState) (rid : String) : ServerState :=
  { s with activeRooms := fun k => if k = rid then none else s.activeRooms k }

/-- `userRoles.set(sid, info)`. -/
def ServerState.setSession (s : ServerState) (sid : String) (info : SessionInfo) : ServerState :=
  { s with userRoles := fun k => if k = sid then some info else s.userRoles k }

/-- `userRoles.delete(sid)`. -/
def ServerState.delSession (s : ServerState) (sid : String) : ServerState :=
  { s with userRoles := fun k => if k = sid then none else s.userRoles k }

/-- State at process start: both maps empty. -/
def initState : ServerState := ⟨fun _ => none, fun _ => none⟩

/-- JS `Set.add`: append, keeping insertion order, no duplicates. -/
def setAdd (x : String) (l : List String) : List String :=
  if x ∈ l then l else l ++ [x]

/-- JS `Set.delete`. -/
def setDel (x : String) (l : List String) : List String :=
  l.filter (fun z => z != x)

/-- Language registry of variant A (`languageNames` in `src/server.js`). -/
def languageNamesA : List (String × String) :=
  [("hi-IN", "Hindi"), ("bn-IN", "Bengali"), ("ta-IN", "Tamil"),
   ("te-IN", "Telugu"), ("mr-IN", "Marathi"), ("gu-IN", "Gujarati"),
   ("kn-IN", "Kannada"), ("ml-IN", "Malayalam"), ("pa-IN", "Punjabi"),
   ("or-IN", "Odia"), ("od-IN", "Odia"), ("es-ES", "Spanish"),
   ("de-DE", "German"), ("fr-FR", "French"), ("en-IN", "English (India)"),
   ("en-US", "English (US)")]

/-- Language registry of variant B (`languageNames` in `src/unnamed/part_000`). -/
def languageNamesB : List (String × String) :=
  [("hi-IN", "Hindi"), ("bn-IN", "Bengali"), ("ta-IN", "Tamil"),
   ("te-IN", "Telugu"), ("mr-IN", "Marathi"), ("gu-IN", "Gujarati"),
   ("kn-IN", "Kannada"), ("ml-IN", "Malayalam"), ("pa-IN", "Punjabi"),
   ("or-IN", "Odia"), ("od-IN", "Odia"), ("en-US", "English"),
   ("en-IN", "English"), ("es-ES", "Spanish"), ("de-DE", "German"),
   ("fr-FR", "French")]

/-- `languageNames[tag] || tag`. -/
def lookupName (reg : List (String × String)) (tag : String) : String :=
  (reg.lookup tag).getD tag

/-- Variant A `getGuestLanguageInRoom`, member-scan part: the
`for (const userId of roomData.users)` loop returning
`info.language || 'hi-IN'` for the first member whose session role is
`guest`, else `'hi-IN'`. -/
def findGuestLangA (s : ServerState) : List String → String
  | [] => "hi-IN"
  | uid :: rest =>
    match s.userRoles uid with
    | some info =>
        if info.role = "guest" then jsOrS info.language "hi-IN"
        else findGuestLangA s rest
    | none => findGuestLangA s rest

/-- Variant A `getGuestLanguageInRoom` (src/server.js lines 58-68):
missing room defaults to `hi-IN`; a truthy `roomData.guestLanguage` wins;
otherwise the member set is scanned for a guest session. -/
def getGuestLanguageInRoomA (s : ServerState) (room : String) : String :=
  match s.activeRooms room with
  | none => "hi-IN"
  | some rd =>
    match rd.guestLanguage with
    | some g => if g = "" then findGuestLangA s rd.users else g
    | none => findGuestLangA s rd.users

/-- Variant B `getGuestLanguageInRoom` (src/unnamed/part_000 lines 70-73):
`roomData?.guestLanguage || 'hi-IN'`. -/
def getGuestLanguageInRoomB (s : ServerState) (room : String) : String :=
  match s.activeRooms room with
  | none => "hi-IN"
  | some rd => jsOrOS rd.guestLanguage "hi-IN"

/-- Result shape of the `transcribeOnce` collaborator. -/
structure SttResult where
  transcript : Option String
  confidence : Option ℚ
  deriving DecidableEq

/-- JS `String.prototype.trim`: drop leading and trailing whitespace.
(Embedded structurally over the character list so that it evaluates on
concrete inputs.) -/
def strTrim (s : String) : String :=
  ⟨((s.data.dropWhile Char.isWhitespace).reverse.dropWhile Char.isWhitespace).reverse⟩

/-- Variant A's empty-transcript test
`!transcription.transcript || !transcription.transcript.trim()`. -/
def transcriptMissingA : Option String → Bool
  | none => true
  | some t => t == "" || strTrim t == ""

/-- Processing-status values carried by `processing_status` events. -/
inductive PStatus where
  | transcribing
  | translating
  | complete
  | error
  deriving DecidableEq

/-- One side (`original` / `translated`) of a broadcast translation message. -/
structure MsgSide where
  text : String
  language : String
  languageName : String
  deriving DecidableEq

/-- Payload of a `translation` event (generated id / timestamp omitted). -/
structure MsgData where
  room : String
  speaker : String
  original : MsgSide
  translated : MsgSide
  confidence : ℚ
  speakerId : String
  ttsAvailable : Bool
  deriving DecidableEq

/-- Server-to-client event payloads. -/
inductive SEvent where
  | roomJoined (room role languageName : String)
  | userJoined (role languageName userId : String)
  | userLeft (role userId : String)
  | roomStats (userCount : Nat) (hotelName : String) (guestLanguage : Option String)
  | processingStatus (status : PStatus) (speaker : Option String) (message : Option String)
  | translation (m : MsgData)
  | roomInfo (hotelName : String) (userCount : Nat) (guestLanguage : Option String)
  | errMessage (message : String)
  deriving DecidableEq

/-- One emission performed by a handler, tagged with its audience. -/
inductive Emit where
  | toSender (e : SEvent)
  | toRoom (room : String) (e : SEvent)
  | toOthers (room : String) (e : SEvent)
  | scheduleCleanup (room : String) (delayMs : Nat)
  deriving DecidableEq

/-- The fixed deferred-cleanup delay, `5 * 60 * 1000` ms in both variants. -/
def cleanupDelayMs : Nat := 5 * 60 * 1000

/-- Shared prefix of both `join_room` handlers:
`const prev = userRoles.get(socket.id)?.room; if (prev) { ...
pd.users.delete(socket.id); }`.  The `if (prev)` guard is a JS truthiness
test, so the removal is skipped not only when there is no session but also
when the previous room id is the falsy empty string. -/
def leavePrev (s : ServerState) (sid : String) : ServerState :=
  match s.userRoles sid with
  | none => s
  | some info =>
    if info.room = "" then s
    else
      match s.activeRooms info.room with
      | none => s
      | some rd => s.setRoom info.room { rd with users := setDel sid rd.users }

/-- Variant A `join_room` (src/server.js lines 113-151).  The JS
`if (!activeRooms.has(room)) set(default); rd = get(room); mutate rd` pair
is fused into a lookup-with-default followed by a single map write, which is
pointwise identical on a `Map`. -/
def joinA (s : ServerState) (sid room role : String) (language : Option String) :
    List Emit × ServerState :=
  let lang0 := language.getD "hi-IN"
  let s1 := leavePrev s sid
  let userLanguage := if role = "receptionist" then "en-US" else lang0
  let s2 := s1.setSession sid ⟨room, role, userLanguage⟩
  let rdOld : RoomData := match s2.activeRooms room with
    | some rd => rd
    | none => ⟨"Unknown Hotel", [], none⟩
  let rd1 : RoomData := { rdOld with
    users := setAdd sid rdOld.users,
    guestLanguage := if role = "guest" then some userLanguage else rdOld.guestLanguage }
  let s3 := s2.setRoom room rd1
  ([Emit.toSender (.roomJoined room role (lookupName languageNamesA userLanguage)),
    Emit.toOthers room (.userJoined role (lookupName languageNamesA userLanguage) sid),
    Emit.toRoom room (.roomStats rd1.users.length rd1.hotelName rd1.guestLanguage)],
   s3)

/-- Variant B `join_room` (src/unnamed/part_000 lines 127-184): validates
`!room || !role` first; the receptionist language is `language || 'en-US'`.
In the source the empty room record is created just before the session is
written; room-map and session-map writes commute, so the state is embedded
with the same fused lookup-with-default as variant A. -/
def joinB (s : ServerState) (sid room role : String) (language : Option String) :
    List Emit × ServerState :=
  if room = "" ∨ role = "" then
    ([Emit.toSender (.errMessage "Missing room/role")], s)
  else
    let s1 := leavePrev s sid
    let lang := if role = "receptionist" then jsOrOS language "en-US"
                else jsOrOS language "hi-IN"
    let s2 := s1.setSession sid ⟨room, role, lang⟩
    let rdOld : RoomData := match s2.activeRooms room with
      | some rd => rd
      | none => ⟨"Unknown Hotel", [], none⟩
    let rd1 : RoomData := { rdOld with
      users := setAdd sid rdOld.users,
      guestLanguage := if role = "guest" then some lang else rdOld.guestLanguage }
    let s3 := s2.setRoom room rd1
    ([Emit.toSender (.roomJoined room role (lookupName languageNamesB lang)),
      Emit.toRoom room (.roomStats rd1.users.length rd1.hotelName rd1.guestLanguage),
      Emit.toOthers room (.userJoined role (lookupName languageNamesB lang) sid)],
     s3)

/-- Variant A catch-block broadcast target
`userRoles.get(socket.id)?.room || ''`. -/
def catchRoomA (s : ServerState) (sid : String) : String :=
  jsOrOS ((s.userRoles sid).map SessionInfo.room) ""

/-- Variant B catch-block room broadcast:
`const room = userRoles.get(socket.id)?.room; if (room) io.to(room).emit(...)`. -/
def catchEmitsB (s : ServerState) (sid : String) (emsg : String) : List Emit :=
  match s.userRoles sid with
  | some info =>
      if info.room = "" then []
      else [Emit.toRoom info.room (.processingStatus .error none (some emsg))]
  | none => []

/-- Variant A `audio_message` handler (src/server.js lines 153-215).
`stt` and `tr` are oracle parameters for the awaited collaborator calls
(`Except.error` models a rejected promise caught by the catch block). -/
def audioMessageA (s : ServerState) (sid room role : String) (language : Option String)
    (stt : Except String SttResult) (tr : Except String String) :
    List Emit × ServerState :=
  match s.userRoles sid with
  | none => ([Emit.toSender (.errMessage "Not authorized for this room")], s)
  | some info =>
    if info.room ≠ room then
      ([Emit.toSender (.errMessage "Not authorized for this room")], s)
    else
      let e1 : Emit := .toRoom room (.processingStatus .transcribing (some role) none)
      match stt with
      | .error emsg =>
          ([e1, Emit.toSender (.errMessage "Failed to process audio_message"),
            Emit.toRoom (catchRoomA s sid) (.processingStatus .error none (some emsg))], s)
      | .ok res =>
        if transcriptMissingA res.transcript then
          ([e1, Emit.toRoom room (.processingStatus .error none (some "No speech detected"))], s)
        else
          let ts := res.transcript.getD ""
          let e2 : Emit := .toRoom room (.processingStatus .translating (some role) none)
          let src := if role = "guest" then jsOrOS language info.language else "en-US"
          let tgt := if role = "guest" then "en-US" else getGuestLanguageInRoomA s room
          match tr with
          | .error emsg =>
              ([e1, e2, Emit.toSender (.errMessage "Failed to process audio_message"),
                Emit.toRoom (catchRoomA s sid) (.processingStatus .error none (some emsg))], s)
          | .ok ttext =>
            let m : MsgData := ⟨room, role,
              ⟨ts, src, lookupName languageNamesA src⟩,
              ⟨ttext, tgt, lookupName languageNamesA tgt⟩,
              res.confidence.getD (95/100), sid, false⟩
            ([e1, e2, Emit.toRoom room (.translation m),
              Emit.toRoom room (.processingStatus .complete none none)], s)

/-- Variant A `text_message` handler (src/server.js lines 217-257). -/
def textMessageA (s : ServerState) (sid room role : String) (language : Option String)
    (text : String) (tr : Except String String) : List Emit × ServerState :=
  match s.userRoles sid with
  | none => ([Emit.toSender (.errMessage "Not authorized for this room")], s)
  | some info =>
    if info.room ≠ room then
      ([Emit.toSender (.errMessage "Not authorized for this room")], s)
    else
      let e1 : Emit := .toRoom room (.processingStatus .translating (some role) none)
      let src := if role = "guest" then jsOrOS language info.language else "en-US"
      let tgt := if role = "guest" then "en-US" else getGuestLanguageInRoomA s room
      match tr with
      | .error emsg =>
          ([e1, Emit.toSender (.errMessage "Failed to process text_message"),
            Emit.toRoom (catchRoomA s sid) (.processingStatus .error none (some emsg))], s)
      | .ok ttext =>
        let m : MsgData := ⟨room, role,
          ⟨text, src, lookupName languageNamesA src⟩,
          ⟨ttext, tgt, lookupName languageNamesA tgt⟩,
          1, sid, false⟩
        ([e1, Emit.toRoom room (.translation m),
          Emit.toRoom room (.processingStatus .complete none none)], s)

/-- Variant B `audio_message` handler (src/unnamed/part_000 lines 186-253):
role-aware STT language, transcript trimmed before the emptiness test,
`stt.confidence || 0.95`, `tr.text || ''`. -/
def audioMessageB (s : ServerState) (sid room role : String) (language : Option String)
    (stt : Except String SttResult) (tr : Except String String) :
    List Emit × ServerState :=
  match s.userRoles sid with
  | none => ([Emit.toSender (.errMessage "Not authorized for this room")], s)
  | some info =>
    if info.room ≠ room then
      ([Emit.toSender (.errMessage "Not authorized for this room")], s)
    else
      let e1 : Emit := .toRoom room (.processingStatus .transcribing (some role) none)
      let sttLang := if role = "guest" then jsOrOS language info.language else "en-US"
      match stt with
      | .error emsg =>
          (e1 :: Emit.toSender (.errMessage "Failed to process audio message")
             :: catchEmitsB s sid emsg, s)
      | .ok res =>
        let transcript := strTrim (jsOrOS res.transcript "")
        if transcript = "" then
          ([e1, Emit.toRoom room (.processingStatus .error none (some "No speech detected"))], s)
        else
          let e2 : Emit := .toRoom room (.processingStatus .translating (some role) none)
          let src := if role = "guest" then sttLang else "en-US"
          let tgt := if role = "guest" then "en-US" else getGuestLanguageInRoomB s room
          match tr with
          | .error emsg =>
              (e1 :: e2 :: Emit.toSender (.errMessage "Failed to process audio message")
                 :: catchEmitsB s sid emsg, s)
          | .ok ttext =>
            let translated := jsOrS ttext ""
            let m : MsgData := ⟨room, role,
              ⟨transcript, src, lookupName languageNamesB src⟩,
              ⟨translated, tgt, lookupName languageNamesB tgt⟩,
              jsOrRat res.confidence (95/100), sid, false⟩
            ([e1, e2, Emit.toRoom room (.translation m),
              Emit.toRoom room (.processingStatus .complete none none)], s)

/-- Variant B `text_message` handler (src/unnamed/part_000 lines 255-305). -/
def textMessageB (s : ServerState) (sid room role : String) (language : Option String)
    (text : String) (tr : Except String String) : List Emit × ServerState :=
  match s.userRoles sid with
  | none => ([Emit.toSender (.errMessage "Not authorized for this room")], s)
  | some info =>
    if info.room ≠ room then
      ([Emit.toSender (.errMessage "Not authorized for this room")], s)
    else
      let e1 : Emit := .toRoom room (.processingStatus .translating (some role) none)
      let src := if role = "guest" then jsOrOS language info.language else "en-US"
      let tgt := if role = "guest" then "en-US" else getGuestLanguageInRoomB s room
      match tr with
      | .error emsg =>
          (e1 :: Emit.toSender (.errMessage "Failed to process text message")
             :: catchEmitsB s sid emsg, s)
      | .ok ttext =>
        let translated := jsOrS ttext ""
        let m : MsgData := ⟨room, role,
          ⟨text, src, lookupName languageNamesB src⟩,
          ⟨translated, tgt, lookupName languageNamesB tgt⟩,
          1, sid, false⟩
        ([e1, Emit.toRoom room (.translation m),
          Emit.toRoom room (.processingStatus .complete none none)], s)

/-- `get_room_info` handler (identical in both variants; the `createdAt`
field of the reply is an unmodelled timestamp): missing room emits nothing. -/
def getRoomInfoS (s : ServerState) (room : String) : List Emit × ServerState :=
  match s.activeRooms room with
  | some rd =>
      ([Emit.toSender (.roomInfo rd.hotelName rd.users.length rd.guestLanguage)], s)
  | none => ([], s)

/-- `disconnect` handler (identical logic in both variants): remove the
member, clear the room guest language if the leaver was a guest, broadcast
`user_left` and `room_stats`, schedule deferred cleanup when the member set
became empty, delete the session.  The room itself is never deleted here. -/
def disconnectS (s : ServerState) (sid : String) : List Emit × ServerState :=
  match s.userRoles sid with
  | none => ([], s)
  | some info =>
    match s.activeRooms info.room with
    | none => ([], s.delSession sid)
    | some rd =>
      let rd1 : RoomData := { rd with
        users := setDel sid rd.users,
        guestLanguage := if info.role = "guest" then none else rd.guestLanguage }
      let sched : List Emit :=
        if rd1.users.length = 0 then [Emit.scheduleCleanup info.room cleanupDelayMs] else []
      ([Emit.toOthers info.room (.userLeft info.role sid),
        Emit.toRoom info.room (.roomStats rd1.users.length rd1.hotelName rd1.guestLanguage)]
         ++ sched,
       (s.setRoom info.room rd1).delSession sid)

/-- Body of the deferred-cleanup `setTimeout` callback (identical in both
variants): delete the room only if it still exists and is still empty. -/
def cleanupFire (s : ServerState) (room : String) : ServerState :=
  match s.activeRooms room with
  | some rd => if rd.users.length = 0 then s.delRoom room else s
  | none => s

/-- `POST /api/generate-room` state effect: register a fresh room id. -/
def generateRoom (s : ServerState) (roomId : String) (hotelName : Option String) :
    ServerState :=
  s.setRoom roomId ⟨jsOrOS hotelName "Unknown Hotel", [], none⟩

/-- Socket-side events driving the room/session state machine.  Message
events carry the collaborator oracle outcomes. -/
inductive CEvent where
  | join (sid room role : String) (language : Option String)
  | disc (sid : String)
  | cleanup (room : String)
  | audioMsg (sid room role : String) (language : Option String)
      (stt : Except String SttResult) (tr : Except String String)
  | textMsg (sid room role : String) (language : Option String)
      (text : String) (tr : Except String String)
  | roomInfoReq (room : String)

/-- Variant A one-event state transition. -/
def stepA (s : ServerState) : CEvent → ServerState
  | .join sid room role lang => (joinA s sid room role lang).2
  | .disc sid => (disconnectS s sid).2
  | .cleanup room => cleanupFire s room
  | .audioMsg sid room role lang stt tr => (audioMessageA s sid room role lang stt tr).2
  | .textMsg sid room role lang text tr => (textMessageA s sid room role lang text tr).2
  | .roomInfoReq room => (getRoomInfoS s room).2

/-- Variant B one-event state transition. -/
def stepB (s : ServerState) : CEvent → ServerState
  | .join sid room role lang => (joinB s sid room role lang).2
  | .disc sid => (disconnectS s sid).2
  | .cleanup room => cleanupFire s room
  | .audioMsg sid room role lang stt tr => (audioMessageB s sid room role lang stt tr).2
  | .textMsg sid room role lang text tr => (textMessageB s sid room role lang text tr).2
  | .roomInfoReq room => (getRoomInfoS s room).2

/-- State reached by variant A after a sequence of events from process start. -/
def reachA (evs : List CEvent) : ServerState := evs.foldl stepA initState

/-- State reached by variant B after a sequence of events from process start. -/
def reachB (evs : List CEvent) : ServerState := evs.foldl stepB initState

/-- Whether an event, if it is a join, names a non-empty room id.  Variant B
enforces this through its `!room || !role` validation; variant A accepts
empty-string room ids, where the `if (prev)` falsy check of a later join
skips the member-set removal. -/
def joinRoomNonempty : CEvent → Bool
  | .join _ room _ _ => room != ""
  | _ => true

/-- Room/session consistency invariant: every existing room's member set is
exactly the set of connections whose session names that room, and every
session names an existing room with a non-empty id. -/
def StoreInv (s : ServerState) : Prop :=
  (∀ rid rd, s.activeRooms rid = some rd →
    ∀ x, x ∈ rd.users ↔ ∃ info, s.userRoles x = some info ∧ info.room = rid) ∧
  (∀ x info, s.userRoles x = some info →
    info.room ≠ "" ∧ ∃ rd, s.activeRooms info.room = some rd)

/-- State effect shared by both join variants, parameterized by the
already-computed effective language `L`. -/
def applyJoin (s : ServerState) (sid room role L : String) : ServerState :=
  let s1 := leavePrev s sid
  let s2 := s1.setSession sid ⟨room, role, L⟩
  let rdOld : RoomData := match s2.activeRooms room with
    | some rd => rd
    | none => ⟨"Unknown Hotel", [], none⟩
  s2.setRoom room { rdOld with
    users := setAdd sid rdOld.users,
    guestLanguage := if role = "guest" then some L else rdOld.guestLanguage }

/-- The room record a join writes into the target room, expressed over the
post-`leavePrev` state `s1`. -/
def joinRoomData (s1 : ServerState) (sid room role L : String) : RoomData :=
  let rdOld : RoomData := match s1.activeRooms room with
    | some rd => rd
    | none => ⟨"Unknown Hotel", [], none⟩
  { rdOld with
    users := setAdd sid rdOld.users,
    guestLanguage := if role = "guest" then some L else rdOld.guestLanguage }

/-- The (original language, translated language) pairs of all `translation`
events broadcast in an emission list. -/
def translationPairs (l : List Emit) : List (String × String) :=
  l.filterMap fun e => match e with
    | .toRoom _ (.translation m) => some (m.original.language, m.translated.language)
    | _ => none

/-- The confidence fields of all broadcast `translation` events. -/
def translationConfs (l : List Emit) : List ℚ :=
  l.filterMap fun e => match e with
    | .toRoom _ (.translation m) => some m.confidence
    | _ => none

/-- Whether a processing status is terminal for the client UI. -/
def isTerminal : PStatus → Bool
  | .complete => true
  | .error => true
  | _ => false

/-- Whether an emission is a terminal `processing_status` broadcast to `room`. -/
def isTerminalStatusTo (room : String) : Emit → Bool
  | .toRoom r (.processingStatus st _ _) => r == room && isTerminal st
  | _ => false

/-- Last element of an emission list. -/
def lastEmit : List Emit → Option Emit
  | [] => none
  | [e] => some e
  | _ :: e :: es => lastEmit (e :: es)

/-- Scenario: guest `g1` (bn-IN) joins room `R`, guest `g2` (ta-IN) joins,
receptionist `rec` joins, then `g2` disconnects — run on variant A.
Afterwards the room's resolved guest language is `null` while guest `g1`
is still a member. -/
def twoGuestStateA : ServerState :=
  (disconnectS
    ((joinA
      ((joinA
        ((joinA initState "g1" "R" "guest" (some "bn-IN")).2)
        "g2" "R" "guest" (some "ta-IN")).2)
      "rec" "R" "receptionist" none).2)
    "g2").2

/-- Scenario: guest `g` joins room `R` then receptionist `rec` joins,
run on variant A. -/
def guestThenRecA : ServerState :=
  (joinA ((joinA initState "g" "R" "guest" (some "bn-IN")).2)
    "rec" "R" "receptionist" none).2

/-- Variant A state of `guestThenRecA` after the guest disconnects:
no guest member remains. -/
def recOnlyA : ServerState := (disconnectS guestThenRecA "g").2

/-- Scenario mirror of `guestThenRecA` on variant B. -/
def guestThenRecB : ServerState :=
  (joinB ((joinB initState "g" "R" "guest" (some "bn-IN")).2)
    "rec" "R" "receptionist" none).2

/-- Variant B state of `guestThenRecB` after the guest disconnects. -/
def recOnlyB : ServerState := (disconnectS guestThenRecB "g").2

/-- Scenario: a single guest in room `R` on variant B. -/
def oneGuestB : ServerState := (joinB initState "g" "R" "guest" (some "hi-IN")).2

/-- Room record after a disconnect removes member `sid` with role `role`. -/
def removeFromRoom (sid role : String) (rd : RoomData) : RoomData :=
  { rd with
    users := setDel sid rd.users,
    guestLanguage := if role = "guest" then none else rd.guestLanguage }

/-- State effect of a disconnect whose session and room both exist. -/
def dropMember (s : ServerState) (sid : String) (info : SessionInfo) (rd : RoomData) :
    ServerState :=
  (s.setRoom info.room (removeFromRoom sid info.role rd)).delSession sid

/-- Pointwise reading of `setRoom`. -/
theorem setRoom_rooms (s : ServerState) (rid : String) (rd : RoomData) (k : String) :
    (s.setRoom rid rd).activeRooms k = if k = rid then some rd else s.activeRooms k := rfl

/-- `setRoom` does not touch sessions. -/
theorem setRoom_sessions (s : ServerState) (rid : String) (rd : RoomData) :
    (s.setRoom rid rd).userRoles = s.userRoles := rfl

/-- Pointwise reading of `delRoom`. -/
theorem delRoom_rooms (s : ServerState) (rid k : String) :
    (s.delRoom rid).activeRooms k = if k = rid then none else s.activeRooms k := rfl

/-- `delRoom` does not touch sessions. -/
theorem delRoom_sessions (s : ServerState) (rid : String) :
    (s.delRoom rid).userRoles = s.userRoles := rfl

/-- Pointwise reading of `setSession`. -/
theorem setSession_sessions (s : ServerState) (sid : String) (i : SessionInfo) (k : String) :
    (s.setSession sid i).userRoles k = if k = sid then some i else s.userRoles k := rfl

/-- `setSession` does not touch rooms. -/
theorem setSession_rooms (s : ServerState) (sid : String) (i : SessionInfo) :
    (s.setSession sid i).activeRooms = s.activeRooms := rfl

/-- Pointwise reading of `delSession`. -/
theorem delSession_sessions (s : ServerState) (sid k : String) :
    (s.delSession sid).userRoles k = if k = sid then none else s.userRoles k := rfl

/-- `delSession` does not touch rooms. -/
theorem delSession_rooms (s : ServerState) (sid : String) :
    (s.delSession sid).activeRooms = s.activeRooms := rfl

/-- Membership after a `Set.add`. -/
theorem mem_setAdd {x y : String} {l : List String} :
    x ∈ setAdd y l ↔ x = y ∨ x ∈ l := by
  unfold setAdd
  split
  · rename_i h
    constructor
    · exact fun hx => Or.inr hx
    · rintro (rfl | hx)
      · exact h
      · exact hx
  · simp [List.mem_append, or_comm]

/-- Membership after a `Set.delete`. -/
theorem mem_setDel {x y : String} {l : List String} :
    x ∈ setDel y l ↔ x ∈ l ∧ x ≠ y := by
  unfold setDel
  simp [List.mem_filter, bne_iff_ne]

/-- `leavePrev` when the connection has no session. -/
theorem leavePrev_nosession (s : ServerState) (sid : String)
    (h1 : s.userRoles sid = none) : leavePrev s sid = s := by
  simp [leavePrev, h1]

/-- `leavePrev` when the previous room id is the falsy empty string: the
`if (prev)` guard skips the removal. -/
theorem leavePrev_emptyroom (s : ServerState) (sid : String) (info : SessionInfo)
    (h1 : s.userRoles sid = some info) (h2 : info.room = "") :
    leavePrev s sid = s := by
  simp [leavePrev, h1, h2]

/-- `leavePrev` when the session's room is missing from the store. -/
theorem leavePrev_noroom (s : ServerState) (sid : String) (info : SessionInfo)
    (h1 : s.userRoles sid = some info) (hne : info.room ≠ "")
    (h2 : s.activeRooms info.room = none) :
    leavePrev s sid = s := by
  simp [leavePrev, h1, hne, h2]

/-- `leavePrev` when the previous room id is truthy and the room exists: the
member is removed. -/
theorem leavePrev_someroom (s : ServerState) (sid : String) (info : SessionInfo)
    (rd : RoomData) (h1 : s.userRoles sid = some info) (hne : info.room ≠ "")
    (h2 : s.activeRooms info.room = some rd) :
    leavePrev s sid = s.setRoom info.room { rd with users := setDel sid rd.users } := by
  simp [leavePrev, h1, hne, h2]

/-- `leavePrev` never changes the session map. -/
theorem leavePrev_sessions (s : ServerState) (sid : String) :
    (leavePrev s sid).userRoles = s.userRoles := by
  rcases h1 : s.userRoles sid with _ | info
  · rw [leavePrev_nosession s sid h1]
  · by_cases hne : info.room = ""
    · rw [leavePrev_emptyroom s sid info h1 hne]
    · rcases h2 : s.activeRooms info.room with _ | rd
      · rw [leavePrev_noroom s sid info h1 hne h2]
      · rw [leavePrev_someroom s sid info rd h1 hne h2, setRoom_sessions]

/-- `leavePrev` preserves room existence. -/
theorem leavePrev_isSome (s : ServerState) (sid k : String) :
    ((leavePrev s sid).activeRooms k).isSome = (s.activeRooms k).isSome := by
  rcases h1 : s.userRoles sid with _ | info
  · rw [leavePrev_nosession s sid h1]
  · by_cases hne : info.room = ""
    · rw [leavePrev_emptyroom s sid info h1 hne]
    · rcases h2 : s.activeRooms info.room with _ | rd
      · rw [leavePrev_noroom s sid info h1 hne h2]
      · rw [leavePrev_someroom s sid info rd h1 hne h2, setRoom_rooms]
        by_cases hk : k = info.room
        · subst hk
          rw [if_pos rfl, h2]
          rfl
        · rw [if_neg hk]

/-- After `leavePrev s sid`, `sid` is in no room's member set
(given the store invariant for `s`, under which no session names the empty
room id, so the `if (prev)` skip never applies). -/
theorem leavePrev_sid_not_mem (s : ServerState) (sid k : String) (rdk : RoomData)
    (hInv : StoreInv s) (hk : (leavePrev s sid).activeRooms k = some rdk) :
    sid ∉ rdk.users := by
  rcases h1 : s.userRoles sid with _ | info
  · rw [leavePrev_nosession s sid h1] at hk
    intro hmem
    rcases (hInv.1 k rdk hk sid).mp hmem with ⟨i, hi, _⟩
    rw [h1] at hi
    exact Option.noConfusion hi
  · have hne : info.room ≠ "" := (hInv.2 sid info h1).1
    rcases h2 : s.activeRooms info.room with _ | rdPrev
    · rcases (hInv.2 sid info h1).2 with ⟨rd0, hrd0⟩
      rw [h2] at hrd0
      exact Option.noConfusion hrd0
    · rw [leavePrev_someroom s sid info rdPrev h1 hne h2, setRoom_rooms] at hk
      by_cases hki : k = info.room
      · rw [if_pos hki] at hk
        injection hk with hk
        subst hk
        intro hmem
        rcases mem_setDel.mp hmem with ⟨_, hne2⟩
        exact hne2 rfl
      · rw [if_neg hki] at hk
        intro hmem
        rcases (hInv.1 k rdk hk sid).mp hmem with ⟨i, hi, hroom⟩
        rw [h1] at hi
        injection hi with hi
        subst hi
        exact hki hroom.symm

/-- For connections other than the leaver, membership after `leavePrev`
matches the session map of `s`. -/
theorem leavePrev_mem_iff (s : ServerState) (sid k x : String) (rdk : RoomData)
    (hInv : StoreInv s) (hk : (leavePrev s sid).activeRooms k = some rdk) (hx : x ≠ sid) :
    (x ∈ rdk.users ↔ ∃ i, s.userRoles x = some i ∧ i.room = k) := by
  rcases h1 : s.userRoles sid with _ | info
  · rw [leavePrev_nosession s sid h1] at hk
    exact hInv.1 k rdk hk x
  · have hne : info.room ≠ "" := (hInv.2 sid info h1).1
    rcases h2 : s.activeRooms info.room with _ | rdPrev
    · rcases (hInv.2 sid info h1).2 with ⟨rd0, hrd0⟩
      rw [h2] at hrd0
      exact Option.noConfusion hrd0
    · rw [leavePrev_someroom s sid info rdPrev h1 hne h2, setRoom_rooms] at hk
      by_cases hki : k = info.room
      · rw [if_pos hki] at hk
        injection hk with hk
        subst hk
        subst hki
        constructor
        · intro hmem
          rcases mem_setDel.mp hmem with ⟨hmem, _⟩
          exact (hInv.1 info.room rdPrev h2 x).mp hmem
        · intro hex
          exact mem_setDel.mpr ⟨(hInv.1 info.room rdPrev h2 x).mpr hex, hx⟩
      · rw [if_neg hki] at hk
        exact hInv.1 k rdk hk x

/-- Session map after `applyJoin`. -/
theorem applyJoin_sessions (s : ServerState) (sid room role L x : String) :
    (applyJoin s sid room role L).userRoles x =
      if x = sid then some ⟨room, role, L⟩ else s.userRoles x := by
  simp only [applyJoin]
  rw [setRoom_sessions, setSession_sessions, leavePrev_sessions]

/-- Room map after `applyJoin`. -/
theorem applyJoin_rooms (s : ServerState) (sid room role L k : String) :
    (applyJoin s sid room role L).activeRooms k =
      if k = room then some (joinRoomData (leavePrev s sid) sid room role L)
      else (leavePrev s sid).activeRooms k := by
  simp only [applyJoin, joinRoomData]
  rw [setRoom_rooms, setSession_rooms]

/-- Membership in the room record written by a join. -/
theorem mem_joinRoomData (s1 : ServerState) (sid room role L x : String) :
    x ∈ (joinRoomData s1 sid room role L).users ↔
      x = sid ∨ ∃ rd, s1.activeRooms room = some rd ∧ x ∈ rd.users := by
  rcases h : s1.activeRooms room with _ | rd
  · simp only [joinRoomData, h]
    simp [mem_setAdd]
  · simp only [joinRoomData, h]
    simp [mem_setAdd]

/-- The empty initial state satisfies the store invariant. -/
theorem StoreInv_init : StoreInv initState := by
  constructor
  · intro rid rd h
    exact Option.noConfusion h
  · intro x info h
    exact Option.noConfusion h

/-- `applyJoin` into a non-empty room id preserves the store invariant. -/
theorem StoreInv_applyJoin (s : ServerState) (sid room role L : String)
    (hroom : room ≠ "") (h : StoreInv s) : StoreInv (applyJoin s sid room role L) := by
  obtain ⟨h1, h2⟩ := h
  have hInv : StoreInv s := ⟨h1, h2⟩
  constructor
  · intro rid rd hrd x
    rw [applyJoin_rooms] at hrd
    by_cases hrr : rid = room
    · subst hrr
      rw [if_pos rfl] at hrd
      injection hrd with hrd
      subst hrd
      rw [mem_joinRoomData]
      constructor
      · rintro (rfl | ⟨rdL, hrdL, hxL⟩)
        · exact ⟨⟨rid, role, L⟩, by rw [applyJoin_sessions, if_pos rfl], rfl⟩
        · by_cases hx : x = sid
          · subst hx
            exact absurd hxL (leavePrev_sid_not_mem s x rid rdL hInv hrdL)
          · rcases (leavePrev_mem_iff s sid rid x rdL hInv hrdL hx).mp hxL with ⟨i, hi, hiroom⟩
            exact ⟨i, by rw [applyJoin_sessions, if_neg hx]; exact hi, hiroom⟩
      · rintro ⟨i, hi, hiroom⟩
        rw [applyJoin_sessions] at hi
        by_cases hx : x = sid
        · exact Or.inl hx
        · rw [if_neg hx] at hi
          rcases (h2 x i hi).2 with ⟨rd0, hrd0⟩
          rw [hiroom] at hrd0
          have hsome := leavePrev_isSome s sid rid
          rw [hrd0] at hsome
          rcases Option.isSome_iff_exists.mp hsome with ⟨rdL, hrdL⟩
          refine Or.inr ⟨rdL, hrdL, ?_⟩
          exact (leavePrev_mem_iff s sid rid x rdL hInv hrdL hx).mpr ⟨i, hi, hiroom⟩
    · rw [if_neg hrr] at hrd
      constructor
      · intro hmem
        by_cases hx : x = sid
        · subst hx
          exact absurd hmem (leavePrev_sid_not_mem s x rid rd hInv hrd)
        · rcases (leavePrev_mem_iff s sid rid x rd hInv hrd hx).mp hmem with ⟨i, hi, hiroom⟩
          refine ⟨i, ?_, hiroom⟩
          rw [applyJoin_sessions, if_neg hx]
          exact hi
      · rintro ⟨i, hi, hiroom⟩
        rw [applyJoin_sessions] at hi
        by_cases hx : x = sid
        · rw [if_pos hx] at hi
          injection hi with hi
          subst hi
          exact absurd hiroom.symm hrr
        · rw [if_neg hx] at hi
          exact (leavePrev_mem_iff s sid rid x rd hInv hrd hx).mpr ⟨i, hi, hiroom⟩
  · intro x info hinfo
    rw [applyJoin_sessions] at hinfo
    by_cases hx : x = sid
    · rw [if_pos hx] at hinfo
      injection hinfo with hinfo
      subst hinfo
      refine ⟨hroom, joinRoomData (leavePrev s sid) sid room role L, ?_⟩
      rw [applyJoin_rooms, if_pos rfl]
    · rw [if_neg hx] at hinfo
      refine ⟨(h2 x info hinfo).1, ?_⟩
      rcases (h2 x info hinfo).2 with ⟨rd0, hrd0⟩
      by_cases hir : info.room = room
      · refine ⟨joinRoomData (leavePrev s sid) sid room role L, ?_⟩
        rw [applyJoin_rooms, hir, if_pos rfl]
      · have hsome := leavePrev_isSome s sid info.room
        rw [hrd0] at hsome
        rcases Option.isSome_iff_exists.mp hsome with ⟨rdL, hrdL⟩
        refine ⟨rdL, ?_⟩
        rw [applyJoin_rooms, if_neg hir]
        exact hrdL


/-- The state effect of variant A's join is `applyJoin` at variant A's
effective language. -/
theorem joinA_state (s : ServerState) (sid room role : String) (lang : Option String) :
    (joinA s sid room role lang).2 =
      applyJoin s sid room role
        (if role = "receptionist" then "en-US" else lang.getD "hi-IN") := rfl

/-- The state effect of variant B's join: unchanged on validation failure,
otherwise `applyJoin` at variant B's effective language. -/
theorem joinB_state (s : ServerState) (sid room role : String) (lang : Option String) :
    (joinB s sid room role lang).2 =
      if room = "" ∨ role = "" then s
      else applyJoin s sid room role
        (if role = "receptionist" then jsOrOS lang "en-US" else jsOrOS lang "hi-IN") := by
  by_cases hc : room = "" ∨ role = ""
  · rw [if_pos hc]
    unfold joinB
    rw [if_pos hc]
  · rw [if_neg hc]
    unfold joinB
    rw [if_neg hc]
    rfl

/-- Variant A's join into a non-empty room id preserves the store
invariant. -/
theorem StoreInv_joinA (s : ServerState) (sid room role : String) (lang : Option String)
    (hroom : room ≠ "") (h : StoreInv s) : StoreInv (joinA s sid room role lang).2 := by
  rw [joinA_state]
  exact StoreInv_applyJoin s sid room role _ hroom h

/-- Variant B's join preserves the store invariant unconditionally: its
validation rejects empty room ids. -/
theorem StoreInv_joinB (s : ServerState) (sid room role : String) (lang : Option String)
    (h : StoreInv s) : StoreInv (joinB s sid room role lang).2 := by
  rw [joinB_state]
  by_cases hc : room = "" ∨ role = ""
  · rw [if_pos hc]
    exact h
  · rw [if_neg hc]
    exact StoreInv_applyJoin s sid room role _ (fun he => hc (Or.inl he)) h

/-- `disconnect` when the connection has no session. -/
theorem disconnectS_nosession (s : ServerState) (sid : String)
    (h1 : s.userRoles sid = none) : disconnectS s sid = ([], s) := by
  simp [disconnectS, h1]

/-- `disconnect` when the session's room is missing from the store. -/
theorem disconnectS_noroom (s : ServerState) (sid : String) (info : SessionInfo)
    (h1 : s.userRoles sid = some info) (h2 : s.activeRooms info.room = none) :
    disconnectS s sid = ([], s.delSession sid) := by
  simp [disconnectS, h1, h2]

/-- `disconnect` when the session's room exists: full description. -/
theorem disconnectS_some (s : ServerState) (sid : String) (info : SessionInfo)
    (rd : RoomData) (h1 : s.userRoles sid = some info)
    (h2 : s.activeRooms info.room = some rd) :
    disconnectS s sid =
      ([Emit.toOthers info.room (.userLeft info.role sid),
        Emit.toRoom info.room (.roomStats (removeFromRoom sid info.role rd).users.length
          (removeFromRoom sid info.role rd).hotelName
          (removeFromRoom sid info.role rd).guestLanguage)]
        ++ (if (removeFromRoom sid info.role rd).users.length = 0 then
              [Emit.scheduleCleanup info.room cleanupDelayMs] else []),
       dropMember s sid info rd) := by
  simp [disconnectS, h1, h2, removeFromRoom, dropMember]

/-- Pointwise room map after `dropMember`. -/
theorem dropMember_rooms (s : ServerState) (sid : String) (info : SessionInfo)
    (rd : RoomData) (k : String) :
    (dropMember s sid info rd).activeRooms k =
      if k = info.room then some (removeFromRoom sid info.role rd)
      else s.activeRooms k := rfl

/-- Pointwise session map after `dropMember`. -/
theorem dropMember_sessions (s : ServerState) (sid : String) (info : SessionInfo)
    (rd : RoomData) (y : String) :
    (dropMember s sid info rd).userRoles y =
      if y = sid then none else s.userRoles y := rfl

/-- Membership in the room record written by a disconnect. -/
theorem mem_removeFromRoom (sid role x : String) (rd : RoomData) :
    x ∈ (removeFromRoom sid role rd).users ↔ x ∈ rd.users ∧ x ≠ sid := by
  unfold removeFromRoom
  exact mem_setDel

/-- `disconnect` preserves the store invariant. -/
theorem StoreInv_disconnect (s : ServerState) (sid : String) (h : StoreInv s) :
    StoreInv (disconnectS s sid).2 := by
  obtain ⟨h1, h2⟩ := h
  rcases hse : s.userRoles sid with _ | info
  · rw [disconnectS_nosession s sid hse]
    exact ⟨h1, h2⟩
  · rcases hro : s.activeRooms info.room with _ | rd
    · rcases (h2 sid info hse).2 with ⟨rd0, hrd0⟩
      rw [hro] at hrd0
      exact Option.noConfusion hrd0
    · rw [disconnectS_some s sid info rd hse hro]
      show StoreInv (dropMember s sid info rd)
      constructor
      · intro rid rd2 hrd2 x
        rw [dropMember_rooms] at hrd2
        by_cases hr : rid = info.room
        · rw [if_pos hr] at hrd2
          injection hrd2 with hrd2
          subst hrd2
          rw [mem_removeFromRoom]
          constructor
          · rintro ⟨hmem, hxs⟩
            rcases (h1 info.room rd hro x).mp hmem with ⟨i, hi, hiroom⟩
            refine ⟨i, ?_, hr ▸ hiroom⟩
            rw [dropMember_sessions, if_neg hxs]
            exact hi
          · rintro ⟨i, hi, hiroom⟩
            rw [dropMember_sessions] at hi
            by_cases hx : x = sid
            · rw [if_pos hx] at hi
              exact Option.noConfusion hi
            · rw [if_neg hx] at hi
              exact ⟨(h1 info.room rd hro x).mpr ⟨i, hi, hr ▸ hiroom⟩, hx⟩
        · rw [if_neg hr] at hrd2
          constructor
          · intro hmem
            rcases (h1 rid rd2 hrd2 x).mp hmem with ⟨i, hi, hiroom⟩
            have hx : x ≠ sid := by
              intro hxs
              subst hxs
              rw [hse] at hi
              injection hi with hi
              subst hi
              exact hr hiroom.symm
            refine ⟨i, ?_, hiroom⟩
            rw [dropMember_sessions, if_neg hx]
            exact hi
          · rintro ⟨i, hi, hiroom⟩
            rw [dropMember_sessions] at hi
            by_cases hx : x = sid
            · rw [if_pos hx] at hi
              exact Option.noConfusion hi
            · rw [if_neg hx] at hi
              exact (h1 rid rd2 hrd2 x).mpr ⟨i, hi, hiroom⟩
      · intro x i hi
        rw [dropMember_sessions] at hi
        by_cases hx : x = sid
        · rw [if_pos hx] at hi
          exact Option.noConfusion hi
        · rw [if_neg hx] at hi
          refine ⟨(h2 x i hi).1, ?_⟩
          rcases (h2 x i hi).2 with ⟨rd0, hrd0⟩
          by_cases hir : i.room = info.room
          · refine ⟨removeFromRoom sid info.role rd, ?_⟩
            rw [dropMember_rooms, if_pos hir]
          · refine ⟨rd0, ?_⟩
            rw [dropMember_rooms, if_neg hir]
            exact hrd0

/-- Deferred cleanup preserves the store invariant. -/
theorem StoreInv_cleanup (s : ServerState) (room : String) (h : StoreInv s) :
    StoreInv (cleanupFire s room) := by
  obtain ⟨h1, h2⟩ := h
  rcases hro : s.activeRooms room with _ | rd
  · have heq : cleanupFire s room = s := by simp [cleanupFire, hro]
    rw [heq]
    exact ⟨h1, h2⟩
  · by_cases hlen : rd.users.length = 0
    · have hcf : cleanupFire s room = s.delRoom room := by simp [cleanupFire, hro, hlen]
      rw [hcf]
      have husers : rd.users = [] := List.length_eq_zero.mp hlen
      constructor
      · intro rid rd2 hrd2 x
        rw [delRoom_rooms] at hrd2
        by_cases hr : rid = room
        · rw [if_pos hr] at hrd2
          exact Option.noConfusion hrd2
        · rw [if_neg hr] at hrd2
          exact h1 rid rd2 hrd2 x
      · intro x i hi
        rcases h2 x i hi with ⟨rd0, hrd0⟩
        by_cases hir : i.room = room
        · exfalso
          have hmem := (h1 room rd hro x).mpr ⟨i, hi, hir⟩
          rw [husers] at hmem
          cases hmem
        · refine ⟨rd0, ?_⟩
          rw [delRoom_rooms, if_neg hir]
          exact hrd0
    · have heq : cleanupFire s room = s := by simp [cleanupFire, hro, hlen]
      rw [heq]
      exact ⟨h1, h2⟩

/-- Variant A's audio handler never mutates the stores. -/
theorem audioMessageA_state (s : ServerState) (sid room role : String)
    (lang : Option String) (stt : Except String SttResult) (tr : Except String String) :
    (audioMessageA s sid room role lang stt tr).2 = s := by
  rcases hse : s.userRoles sid with _ | info
  · simp [audioMessageA, hse]
  · rcases stt with emsg | res
    · by_cases hroom : info.room ≠ room
      · simp [audioMessageA, hse, hroom]
      · simp [audioMessageA, hse, hroom]
    · rcases tr with emsg | t
      · by_cases hroom : info.room ≠ room
        · simp [audioMessageA, hse, hroom]
        · by_cases ht : transcriptMissingA res.transcript
          · simp [audioMessageA, hse, hroom, ht]
          · simp [audioMessageA, hse, hroom, ht]
      · by_cases hroom : info.room ≠ room
        · simp [audioMessageA, hse, hroom]
        · by_cases ht : transcriptMissingA res.transcript
          · simp [audioMessageA, hse, hroom, ht]
          · simp [audioMessageA, hse, hroom, ht]

/-- Variant A's text handler never mutates the stores. -/
theorem textMessageA_state (s : ServerState) (sid room role : String)
    (lang : Option String) (text : String) (tr : Except String String) :
    (textMessageA s sid room role lang text tr).2 = s := by
  rcases hse : s.userRoles sid with _ | info
  · simp [textMessageA, hse]
  · rcases tr with emsg | t
    · by_cases hroom : info.room ≠ room
      · simp [textMessageA, hse, hroom]
      · simp [textMessageA, hse, hroom]
    · by_cases hroom : info.room ≠ room
      · simp [textMessageA, hse, hroom]
      · simp [textMessageA, hse, hroom]

/-- Variant B's audio handler never mutates the stores. -/
theorem audioMessageB_state (s : ServerState) (sid room role : String)
    (lang : Option String) (stt : Except String SttResult) (tr : Except String String) :
    (audioMessageB s sid room role lang stt tr).2 = s := by
  rcases hse : s.userRoles sid with _ | info
  · simp [audioMessageB, hse]
  · rcases stt with emsg | res
    · by_cases hroom : info.room ≠ room
      · simp [audioMessageB, hse, hroom]
      · simp [audioMessageB, hse, hroom]
    · rcases tr with emsg | t
      · by_cases hroom : info.room ≠ room
        · simp [audioMessageB, hse, hroom]
        · by_cases ht : strTrim (jsOrOS res.transcript "") = ""
          · simp [audioMessageB, hse, hroom, ht]
          · simp [audioMessageB, hse, hroom, ht]
      · by_cases hroom : info.room ≠ room
        · simp [audioMessageB, hse, hroom]
        · by_cases ht : strTrim (jsOrOS res.transcript "") = ""
          · simp [audioMessageB, hse, hroom, ht]
          · simp [audioMessageB, hse, hroom, ht]

/-- Variant B's text handler never mutates the stores. -/
theorem textMessageB_state (s : ServerState) (sid room role : String)
    (lang : Option String) (text : String) (tr : Except String String) :
    (textMessageB s sid room role lang text tr).2 = s := by
  rcases hse : s.userRoles sid with _ | info
  · simp [textMessageB, hse]
  · rcases tr with emsg | t
    · by_cases hroom : info.room ≠ room
      · simp [textMessageB, hse, hroom]
      · simp [textMessageB, hse, hroom]
    · by_cases hroom : info.room ≠ room
      · simp [textMessageB, hse, hroom]
      · simp [textMessageB, hse, hroom]

/-- The room-info handler never mutates the stores. -/
theorem getRoomInfoS_state (s : ServerState) (room : String) :
    (getRoomInfoS s room).2 = s := by
  rcases hro : s.activeRooms room with _ | rd
  · simp [getRoomInfoS, hro]
  · simp [getRoomInfoS, hro]

/-- Every variant A step whose join (if any) names a non-empty room id
preserves the store invariant. -/
theorem StoreInv_stepA (s : ServerState) (e : CEvent)
    (hg : joinRoomNonempty e = true) (h : StoreInv s) :
    StoreInv (stepA s e) := by
  cases e with
  | join sid room role lang =>
    have hroom : room ≠ "" := by
      simpa [joinRoomNonempty] using hg
    exact StoreInv_joinA s sid room role lang hroom h
  | disc sid => exact StoreInv_disconnect s sid h
  | cleanup room => exact StoreInv_cleanup s room h
  | audioMsg sid room role lang stt tr =>
    show StoreInv (audioMessageA s sid room role lang stt tr).2
    rw [audioMessageA_state]
    exact h
  | textMsg sid room role lang text tr =>
    show StoreInv (textMessageA s sid room role lang text tr).2
    rw [textMessageA_state]
    exact h
  | roomInfoReq room =>
    show StoreInv (getRoomInfoS s room).2
    rw [getRoomInfoS_state]
    exact h

/-- Every variant B step preserves the store invariant. -/
theorem StoreInv_stepB (s : ServerState) (e : CEvent) (h : StoreInv s) :
    StoreInv (stepB s e) := by
  cases e with
  | join sid room role lang => exact StoreInv_joinB s sid room role lang h
  | disc sid => exact StoreInv_disconnect s sid h
  | cleanup room => exact StoreInv_cleanup s room h
  | audioMsg sid room role lang stt tr =>
    show StoreInv (audioMessageB s sid room role lang stt tr).2
    rw [audioMessageB_state]
    exact h
  | textMsg sid room role lang text tr =>
    show StoreInv (textMessageB s sid room role lang text tr).2
    rw [textMessageB_state]
    exact h
  | roomInfoReq room =>
    show StoreInv (getRoomInfoS s room).2
    rw [getRoomInfoS_state]
    exact h

/-- Folding variant A steps from an invariant state stays invariant. -/
theorem StoreInv_foldlA : ∀ (evs : List CEvent) (s : ServerState),
    (∀ e ∈ evs, joinRoomNonempty e = true) →
    StoreInv s → StoreInv (evs.foldl stepA s)
  | [], _, _, h => h
  | e :: es, s, hg, h =>
    StoreInv_foldlA es (stepA s e) (fun x hx => hg x (List.mem_cons_of_mem _ hx))
      (StoreInv_stepA s e (hg e (List.mem_cons_self _ _)) h)

/-- Folding variant B steps from an invariant state stays invariant. -/
theorem StoreInv_foldlB : ∀ (evs : List CEvent) (s : ServerState),
    StoreInv s → StoreInv (evs.foldl stepB s)
  | [], _, h => h
  | e :: es, s, h => StoreInv_foldlB es (stepB s e) (StoreInv_stepB s e h)

/-- Every variant A state reached by events whose joins all name non-empty
room ids satisfies the store invariant. -/
theorem StoreInv_reachA (evs : List CEvent)
    (hg : ∀ e ∈ evs, joinRoomNonempty e = true) : StoreInv (reachA evs) :=
  StoreInv_foldlA evs initState hg StoreInv_init

/-- Every variant B reachable state satisfies the store invariant. -/
theorem StoreInv_reachB (evs : List CEvent) : StoreInv (reachB evs) :=
  StoreInv_foldlB evs initState StoreInv_init

/-- Under the store invariant a connection sits in at most one member set. -/
theorem atMostOne_of_StoreInv (s : ServerState) (h : StoreInv s)
    (x rid1 rid2 : String) (rd1 rd2 : RoomData)
    (ha : s.activeRooms rid1 = some rd1) (hb : s.activeRooms rid2 = some rd2)
    (m1 : x ∈ rd1.users) (m2 : x ∈ rd2.users) : rid1 = rid2 := by
  rcases (h.1 rid1 rd1 ha x).mp m1 with ⟨i, hi, hir⟩
  rcases (h.1 rid2 rd2 hb x).mp m2 with ⟨j, hj, hjr⟩
  rw [hi] at hj
  injection hj with hj
  subst hj
  exact hir.symm.trans hjr

/-- C7 counterexample: variant A accepts a join naming the empty-string room
id; when the connection then joins room `B`, the `if (prev)` falsy check
skips the removal, so `c` is still in room `""`'s member set while its
session names `"B"` — the connection sits in two rooms' member sets and room
`""`'s member set does not equal the set of sessions naming it. -/
theorem C7_member_set_consistency_counterexample :
    (reachA [CEvent.join "c" "" "guest" none,
        CEvent.join "c" "B" "guest" none]).activeRooms ""
      = some ⟨"Unknown Hotel", ["c"], some "hi-IN"⟩ ∧
    (reachA [CEvent.join "c" "" "guest" none,
        CEvent.join "c" "B" "guest" none]).activeRooms "B"
      = some ⟨"Unknown Hotel", ["c"], some "hi-IN"⟩ ∧
    (reachA [CEvent.join "c" "" "guest" none,
        CEvent.join "c" "B" "guest" none]).userRoles "c"
      = some ⟨"B", "guest", "hi-IN"⟩ ∧
    ("c" ∈ (RoomData.mk "Unknown Hotel" ["c"] (some "hi-IN")).users) ∧
    ("" : String) ≠ "B" :=
  ⟨by decide, by decide, by decide, by decide, by decide⟩

/-- C7 (amended): in the part_000 variant, for every sequence of events
(joins, disconnects, deferred cleanups, messages, room-info requests) every
room's member set equals the set of connections whose session names that
room, and hence each connection belongs to at most one room's member set at
any time.  In the server.js variant the same holds for every sequence whose
join events all name a non-empty room id; a join naming the falsy
empty-string room id is accepted there, and a later join then skips the
removal from room `""`'s member set. -/
theorem C7_member_set_consistency (evs : List CEvent) :
    ((∀ e ∈ evs, joinRoomNonempty e = true) →
      (∀ rid rd, (reachA evs).activeRooms rid = some rd →
        ∀ x, x ∈ rd.users ↔
          ∃ info, (reachA evs).userRoles x = some info ∧ info.room = rid) ∧
      (∀ x rid1 rid2 rd1 rd2, (reachA evs).activeRooms rid1 = some rd1 →
        (reachA evs).activeRooms rid2 = some rd2 →
        x ∈ rd1.users → x ∈ rd2.users → rid1 = rid2)) ∧
    (∀ rid rd, (reachB evs).activeRooms rid = some rd →
      ∀ x, x ∈ rd.users ↔
        ∃ info, (reachB evs).userRoles x = some info ∧ info.room = rid) ∧
    (∀ x rid1 rid2 rd1 rd2, (reachB evs).activeRooms rid1 = some rd1 →
      (reachB evs).activeRooms rid2 = some rd2 →
      x ∈ rd1.users → x ∈ rd2.users → rid1 = rid2) :=
  ⟨fun hg =>
    ⟨(StoreInv_reachA evs hg).1,
     fun x rid1 rid2 rd1 rd2 ha hb m1 m2 =>
       atMostOne_of_StoreInv (reachA evs) (StoreInv_reachA evs hg) x rid1 rid2
         rd1 rd2 ha hb m1 m2⟩,
   (StoreInv_reachB evs).1,
   fun x rid1 rid2 rd1 rd2 ha hb m1 m2 =>
     atMostOne_of_StoreInv (reachB evs) (StoreInv_reachB evs) x rid1 rid2 rd1 rd2
       ha hb m1 m2⟩

/-- Witness for C7 (amended): after `c` joins room `A` and then room `B`
(both room ids non-empty), in the variant A run `c` is a member of `B` and
no longer a member of `A`, and in the variant B run the two member sets can
only coincide; the member sets match the session map as the theorem
states. -/
theorem C7_member_set_consistency_witness :
    ("c" ∈ (RoomData.mk "Unknown Hotel" ["c"] (some "hi-IN")).users) ∧
    ("c" ∉ (RoomData.mk "Unknown Hotel" [] (some "hi-IN")).users) ∧
    ("B" : String) = "B" := by
  have h := C7_member_set_consistency
    [CEvent.join "c" "A" "guest" none, CEvent.join "c" "B" "guest" none]
  have hA := h.1 (by decide)
  refine ⟨?_, ?_, ?_⟩
  · exact (hA.1 "B" ⟨"Unknown Hotel", ["c"], some "hi-IN"⟩ (by decide) "c").mpr
      ⟨⟨"B", "guest", "hi-IN"⟩, by decide, rfl⟩
  · intro hmem
    rcases (hA.1 "A" ⟨"Unknown Hotel", [], some "hi-IN"⟩ (by decide) "c").mp hmem
      with ⟨i, hi, hir⟩
    have : i = ⟨"B", "guest", "hi-IN"⟩ := by
      have hc : (reachA [CEvent.join "c" "A" "guest" none,
          CEvent.join "c" "B" "guest" none]).userRoles "c"
          = some ⟨"B", "guest", "hi-IN"⟩ := by decide
      rw [hc] at hi
      injection hi with hi
      exact hi.symm
    subst this
    exact absurd hir (by decide)
  · exact h.2.2 "c" "B" "B" ⟨"Unknown Hotel", ["c"], some "hi-IN"⟩
      ⟨"Unknown Hotel", ["c"], some "hi-IN"⟩ (by decide) (by decide)
      (by decide) (by decide)

/-- C2: an `audio_message` or `text_message` whose sending connection has no
session, or whose session names a different room, yields exactly one private
`error` event to the sender; nothing is broadcast to the declared room and
both stores are unchanged (both variants, both message kinds). -/
theorem C2_unauthorized_message (s : ServerState) (sid room role : String)
    (lang : Option String) (text : String)
    (stt : Except String SttResult) (tr : Except String String)
    (h : ∀ i, s.userRoles sid = some i → i.room ≠ room) :
    audioMessageA s sid room role lang stt tr
      = ([Emit.toSender (.errMessage "Not authorized for this room")], s) ∧
    textMessageA s sid room role lang text tr
      = ([Emit.toSender (.errMessage "Not authorized for this room")], s) ∧
    audioMessageB s sid room role lang stt tr
      = ([Emit.toSender (.errMessage "Not authorized for this room")], s) ∧
    textMessageB s sid room role lang text tr
      = ([Emit.toSender (.errMessage "Not authorized for this room")], s) := by
  rcases hse : s.userRoles sid with _ | info
  · refine ⟨?_, ?_, ?_, ?_⟩ <;>
      simp [audioMessageA, textMessageA, audioMessageB, textMessageB, hse]
  · have hne : info.room ≠ room := h info hse
    refine ⟨?_, ?_, ?_, ?_⟩ <;>
      simp [audioMessageA, textMessageA, audioMessageB, textMessageB, hse, hne]

/-- Witness for C2: a connection with no session at all. -/
theorem C2_unauthorized_message_witness :
    audioMessageA initState "c" "R" "guest" none
        (Except.ok ⟨some "hello", none⟩) (Except.ok "t")
      = ([Emit.toSender (.errMessage "Not authorized for this room")], initState) ∧
    textMessageA initState "c" "R" "guest" none "hello" (Except.ok "t")
      = ([Emit.toSender (.errMessage "Not authorized for this room")], initState) ∧
    audioMessageB initState "c" "R" "guest" none
        (Except.ok ⟨some "hello", none⟩) (Except.ok "t")
      = ([Emit.toSender (.errMessage "Not authorized for this room")], initState) ∧
    textMessageB initState "c" "R" "guest" none "hello" (Except.ok "t")
      = ([Emit.toSender (.errMessage "Not authorized for this room")], initState) :=
  C2_unauthorized_message initState "c" "R" "guest" none "hello"
    (Except.ok ⟨some "hello", none⟩) (Except.ok "t")
    (fun _ hi => Option.noConfusion hi)

/-- C10: `get_room_info` for a room missing from the store emits no event at
all (neither `room_info` nor `error`), and the handler never mutates either
store (identical handler in both variants). -/
theorem C10_room_info_silent (s : ServerState) (room : String) :
    (s.activeRooms room = none → getRoomInfoS s room = ([], s)) ∧
    (getRoomInfoS s room).2 = s := by
  constructor
  · intro h
    simp [getRoomInfoS, h]
  · exact getRoomInfoS_state s room

/-- Witness for C10: the room store is empty at process start. -/
theorem C10_room_info_silent_witness :
    getRoomInfoS initState "R" = ([], initState) ∧
    (getRoomInfoS initState "R").2 = initState :=
  ⟨(C10_room_info_silent initState "R").1 rfl, (C10_room_info_silent initState "R").2⟩

/-- C3: a disconnect never deletes the room synchronously (the room record is
still in the store right after the member is removed); a cleanup is scheduled
with the fixed 5-minute delay exactly when the member set became empty; a
firing cleanup deletes the room iff it still exists and is still empty, and
leaves the whole state untouched otherwise (so a rejoin within the delay, or
a redundant firing, keeps the room).  The logic is shared by both variants. -/
theorem C3_deferred_cleanup (s : ServerState) (sid rid : String) (info : SessionInfo)
    (rd : RoomData) (hs : s.userRoles sid = some info)
    (hr : s.activeRooms info.room = some rd) :
    ((disconnectS s sid).2.activeRooms info.room
        = some (removeFromRoom sid info.role rd)) ∧
    (Emit.scheduleCleanup info.room cleanupDelayMs ∈ (disconnectS s sid).1 ↔
        (removeFromRoom sid info.role rd).users.length = 0) ∧
    cleanupDelayMs = 300000 ∧
    (∀ t : ServerState, ∀ rdt, t.activeRooms rid = some rdt → rdt.users.length = 0 →
        (cleanupFire t rid).activeRooms rid = none ∧
        (∀ k, k ≠ rid → (cleanupFire t rid).activeRooms k = t.activeRooms k) ∧
        (cleanupFire t rid).userRoles = t.userRoles) ∧
    (∀ t : ServerState, (∀ rdt, t.activeRooms rid = some rdt → rdt.users.length ≠ 0) →
        cleanupFire t rid = t) := by
  refine ⟨?_, ?_, rfl, ?_, ?_⟩
  · rw [disconnectS_some s sid info rd hs hr]
    show (dropMember s sid info rd).activeRooms info.room = _
    rw [dropMember_rooms, if_pos rfl]
  · rw [disconnectS_some s sid info rd hs hr]
    by_cases hlen : (removeFromRoom sid info.role rd).users.length = 0
    · simp [hlen]
    · simp [hlen]
  · intro t rdt hrdt hlen
    refine ⟨?_, ?_, ?_⟩
    · simp [cleanupFire, hrdt, hlen, delRoom_rooms]
    · intro k hk
      simp [cleanupFire, hrdt, hlen, delRoom_rooms, hk]
    · simp [cleanupFire, hrdt, hlen, delRoom_sessions]
  · intro t hne
    rcases hrt : t.activeRooms rid with _ | rdt
    · simp [cleanupFire, hrt]
    · have hlen := hne rdt hrt
      simp [cleanupFire, hrt, hlen]

/-- Witness for C3: sole guest `a` of room `R` disconnects; the room is still
stored, a cleanup was scheduled, and firing it deletes the room, while firing
against the still-occupied pre-disconnect state changes nothing. -/
theorem C3_deferred_cleanup_witness :
    ((disconnectS (joinA initState "a" "R" "guest" none).2 "a").2.activeRooms "R"
        = some (removeFromRoom "a" "guest" ⟨"Unknown Hotel", ["a"], some "hi-IN"⟩)) ∧
    (Emit.scheduleCleanup "R" cleanupDelayMs
        ∈ (disconnectS (joinA initState "a" "R" "guest" none).2 "a").1) ∧
    cleanupDelayMs = 300000 ∧
    ((cleanupFire (disconnectS (joinA initState "a" "R" "guest" none).2 "a").2
        "R").activeRooms "R" = none) ∧
    cleanupFire (joinA initState "a" "R" "guest" none).2 "R"
        = (joinA initState "a" "R" "guest" none).2 := by
  have h := C3_deferred_cleanup (joinA initState "a" "R" "guest" none).2 "a" "R"
    ⟨"R", "guest", "hi-IN"⟩ ⟨"Unknown Hotel", ["a"], some "hi-IN"⟩ (by decide) (by decide)
  refine ⟨h.1, (h.2.1).mpr (by decide), h.2.2.1, ?_, ?_⟩
  · exact (h.2.2.2.1 (disconnectS (joinA initState "a" "R" "guest" none).2 "a").2
      (removeFromRoom "a" "guest" ⟨"Unknown Hotel", ["a"], some "hi-IN"⟩) h.1
      (by decide)).1
  · refine h.2.2.2.2 (joinA initState "a" "R" "guest" none).2 ?_
    intro rdt hrdt
    have he : rdt = ⟨"Unknown Hotel", ["a"], some "hi-IN"⟩ := by
      have hx : (joinA initState "a" "R" "guest" none).2.activeRooms "R"
          = some ⟨"Unknown Hotel", ["a"], some "hi-IN"⟩ := by decide
      rw [hx] at hrdt
      injection hrdt with e
      exact e.symm
    subst he
    decide

/-- C6: an authorized audio message whose transcript is absent or empty after
trimming results in exactly the `transcribing` status followed by a
`processing_status error "No speech detected"` broadcast to the room; no
`translation` event is emitted, the stores are untouched, and the result does
not depend on the translation collaborator's outcome (both variants). -/
theorem C6_empty_transcript (s : ServerState) (sid room role : String)
    (lang : Option String) (res : SttResult) (tr tr2 : Except String String)
    (i : SessionInfo) (hs : s.userRoles sid = some i) (hroom : i.room = room)
    (hA : transcriptMissingA res.transcript = true)
    (hB : strTrim (jsOrOS res.transcript "") = "") :
    audioMessageA s sid room role lang (Except.ok res) tr
      = ([Emit.toRoom room (.processingStatus .transcribing (some role) none),
          Emit.toRoom room (.processingStatus .error none (some "No speech detected"))], s) ∧
    audioMessageB s sid room role lang (Except.ok res) tr
      = ([Emit.toRoom room (.processingStatus .transcribing (some role) none),
          Emit.toRoom room (.processingStatus .error none (some "No speech detected"))], s) ∧
    translationPairs (audioMessageA s sid room role lang (Except.ok res) tr).1 = [] ∧
    translationPairs (audioMessageB s sid room role lang (Except.ok res) tr).1 = [] ∧
    audioMessageA s sid room role lang (Except.ok res) tr
      = audioMessageA s sid room role lang (Except.ok res) tr2 ∧
    audioMessageB s sid room role lang (Except.ok res) tr
      = audioMessageB s sid room role lang (Except.ok res) tr2 := by
  have hEA : ∀ tr' : Except String String,
      audioMessageA s sid room role lang (Except.ok res) tr'
        = ([Emit.toRoom room (.processingStatus .transcribing (some role) none),
            Emit.toRoom room
              (.processingStatus .error none (some "No speech detected"))], s) := by
    intro tr'
    simp [audioMessageA, hs, hroom, hA]
  have hEB : ∀ tr' : Except String String,
      audioMessageB s sid room role lang (Except.ok res) tr'
        = ([Emit.toRoom room (.processingStatus .transcribing (some role) none),
            Emit.toRoom room
              (.processingStatus .error none (some "No speech detected"))], s) := by
    intro tr'
    simp [audioMessageB, hs, hroom, hB]
  refine ⟨hEA tr, hEB tr, ?_, ?_, (hEA tr).trans (hEA tr2).symm,
    (hEB tr).trans (hEB tr2).symm⟩
  · rw [hEA tr]
    rfl
  · rw [hEB tr]
    rfl

/-- Witness for C6: a whitespace-only transcript in room `R`. -/
theorem C6_empty_transcript_witness :
    audioMessageA guestThenRecA "g" "R" "guest" none
        (Except.ok ⟨some "   ", some (1/2)⟩) (Except.ok "t")
      = ([Emit.toRoom "R" (.processingStatus .transcribing (some "guest") none),
          Emit.toRoom "R" (.processingStatus .error none (some "No speech detected"))],
         guestThenRecA) ∧
    translationPairs (audioMessageA guestThenRecA "g" "R" "guest" none
        (Except.ok ⟨some "   ", some (1/2)⟩) (Except.ok "t")).1 = [] := by
  have h := C6_empty_transcript guestThenRecA "g" "R" "guest" none
    ⟨some "   ", some (1/2)⟩ (Except.ok "t") (Except.error "boom")
    ⟨"R", "guest", "bn-IN"⟩ (by decide) rfl (by decide) (by decide)
  exact ⟨h.1, h.2.2.1⟩

/-- C5 counterexample: in the part_000 variant a receptionist joining with an
explicit language keeps that language; the effective language is not
normalized to `en-US`. -/
theorem C5_join_language_counterexample :
    (joinB initState "c" "R" "receptionist" (some "fr-FR")).2.userRoles "c"
      = some ⟨"R", "receptionist", "fr-FR"⟩ ∧ ("fr-FR" : String) ≠ "en-US" := by
  exact ⟨by decide, by decide⟩

/-- C5 (amended): the effective language stored on join is, in variant A
(server.js), `en-US` for role `receptionist` and the requested language
(default `hi-IN` when absent) for every other role including `admin`; in
variant B (part_000) it is the requested language whenever one is supplied
and non-empty, falling back to `en-US` for `receptionist` and `hi-IN` for
other roles. -/
theorem C5_join_effective_language (s : ServerState) (sid room role : String)
    (lang : Option String) (hroom : room ≠ "") (hrole : role ≠ "") :
    (joinA s sid room role lang).2.userRoles sid
      = some ⟨room, role,
          if role = "receptionist" then "en-US" else lang.getD "hi-IN"⟩ ∧
    (joinB s sid room role lang).2.userRoles sid
      = some ⟨room, role,
          if role = "receptionist" then jsOrOS lang "en-US" else jsOrOS lang "hi-IN"⟩ := by
  constructor
  · rw [joinA_state, applyJoin_sessions, if_pos rfl]
  · rw [joinB_state, if_neg (by simp [hroom, hrole]), applyJoin_sessions, if_pos rfl]

/-- Witness for C5 (amended): an `admin` join keeps the requested language in
variant A and falls back to `hi-IN` in variant B when none is given. -/
theorem C5_join_effective_language_witness :
    (joinA initState "c" "R" "admin" (some "fr-FR")).2.userRoles "c"
      = some ⟨"R", "admin", "fr-FR"⟩ ∧
    (joinB initState "c" "R" "admin" none).2.userRoles "c"
      = some ⟨"R", "admin", "hi-IN"⟩ := by
  refine ⟨?_, ?_⟩
  · exact (C5_join_effective_language initState "c" "R" "admin" (some "fr-FR")
      (by decide) (by decide)).1
  · exact (C5_join_effective_language initState "c" "R" "admin" none
      (by decide) (by decide)).2

/-- Variant A's guest scan yields the default when no member has a guest
session. -/
theorem findGuestLangA_no_guest (t : ServerState) :
    ∀ l : List String, (∀ x ∈ l, ∀ j, t.userRoles x = some j → j.role ≠ "guest") →
      findGuestLangA t l = "hi-IN"
  | [], _ => rfl
  | uid :: rest, h => by
    have hrest : ∀ x ∈ rest, ∀ j, t.userRoles x = some j → j.role ≠ "guest" :=
      fun x hx => h x (List.mem_cons_of_mem _ hx)
    rcases hse : t.userRoles uid with _ | j
    · have := findGuestLangA_no_guest t rest hrest
      simp [findGuestLangA, hse, this]
    · have hng : j.role ≠ "guest" := h uid (List.mem_cons_self _ _) j hse
      have := findGuestLangA_no_guest t rest hrest
      simp [findGuestLangA, hse, hng, this]

/-- C1 counterexample: in variant A, with guests `g1` (bn-IN) and `g2`
(ta-IN) plus a receptionist in room `R`, after `g2` disconnects the room's
resolved guest language is null, yet the receptionist's next text message is
translated towards `bn-IN` (the remaining guest member's session language)
instead of the default `hi-IN` that the claim requires when no resolved
guest language is set. -/
theorem C1_staff_direction_counterexample :
    (twoGuestStateA.activeRooms "R").map RoomData.guestLanguage = some none ∧
    translationPairs (textMessageA twoGuestStateA "rec" "R" "receptionist" none
        "Room is ready" (Except.ok "tx")).1 = [("en-US", "bn-IN")] ∧
    ("bn-IN" : String) ≠ "hi-IN" :=
  ⟨by decide, by decide, by decide⟩

/-- C1 (amended): for every receptionist or admin message (audio or text)
the translation direction has source fixed to `en-US` regardless of the
per-message language, and target equal to the variant's
`getGuestLanguageInRoom` read of the room: that is the room's resolved
guest language whenever one is set and non-empty; when it is null, the
part_000 variant falls back to `hi-IN`, while the server.js variant first
falls back to the session language of the first guest member found in the
member set, using `hi-IN` only when there is none. -/
theorem C1_staff_direction (s : ServerState) (sid room role : String)
    (lang : Option String) (text : String) (stt : Except String SttResult)
    (tr : Except String String)
    (hrole : role = "receptionist" ∨ role = "admin") :
    (∀ p ∈ translationPairs (audioMessageA s sid room role lang stt tr).1,
        p = ("en-US", getGuestLanguageInRoomA s room)) ∧
    (∀ p ∈ translationPairs (textMessageA s sid room role lang text tr).1,
        p = ("en-US", getGuestLanguageInRoomA s room)) ∧
    (∀ p ∈ translationPairs (audioMessageB s sid room role lang stt tr).1,
        p = ("en-US", getGuestLanguageInRoomB s room)) ∧
    (∀ p ∈ translationPairs (textMessageB s sid room role lang text tr).1,
        p = ("en-US", getGuestLanguageInRoomB s room)) ∧
    (∀ (t : ServerState) rd g, t.activeRooms room = some rd →
        rd.guestLanguage = some g → g ≠ "" →
        getGuestLanguageInRoomA t room = g ∧ getGuestLanguageInRoomB t room = g) ∧
    (∀ (t : ServerState) rd, t.activeRooms room = some rd →
        rd.guestLanguage = none →
        getGuestLanguageInRoomA t room = findGuestLangA t rd.users ∧
        getGuestLanguageInRoomB t room = "hi-IN") := by
  have hg : role ≠ "guest" := by
    rcases hrole with rfl | rfl
    · decide
    · decide
  refine ⟨?_, ?_, ?_, ?_, ?_, ?_⟩
  · rcases hse : s.userRoles sid with _ | info
    · simp [audioMessageA, hse, translationPairs]
    · by_cases hroom : info.room = room
      · rcases stt with emsg | res
        · simp [audioMessageA, hse, hroom, translationPairs]
        · by_cases ht : transcriptMissingA res.transcript
          · simp [audioMessageA, hse, hroom, ht, translationPairs]
          · rcases tr with emsg | ttext
            · simp [audioMessageA, hse, hroom, ht, translationPairs]
            · simp [audioMessageA, hse, hroom, ht, translationPairs, hg]
      · simp [audioMessageA, hse, hroom, translationPairs]
  · rcases hse : s.userRoles sid with _ | info
    · simp [textMessageA, hse, translationPairs]
    · by_cases hroom : info.room = room
      · rcases tr with emsg | ttext
        · simp [textMessageA, hse, hroom, translationPairs]
        · simp [textMessageA, hse, hroom, translationPairs, hg]
      · simp [textMessageA, hse, hroom, translationPairs]
  · rcases hse : s.userRoles sid with _ | info
    · simp [audioMessageB, hse, translationPairs]
    · by_cases hroom : info.room = room
      · rcases stt with emsg | res
        · simp [audioMessageB, hse, hroom, translationPairs, catchEmitsB]
        · by_cases ht : strTrim (jsOrOS res.transcript "") = ""
          · simp [audioMessageB, hse, hroom, ht, translationPairs]
          · rcases tr with emsg | ttext
            · simp [audioMessageB, hse, hroom, ht, translationPairs, catchEmitsB]
            · simp [audioMessageB, hse, hroom, ht, translationPairs, hg]
      · simp [audioMessageB, hse, hroom, translationPairs]
  · rcases hse : s.userRoles sid with _ | info
    · simp [textMessageB, hse, translationPairs]
    · by_cases hroom : info.room = room
      · rcases tr with emsg | ttext
        · simp [textMessageB, hse, hroom, translationPairs, catchEmitsB]
        · simp [textMessageB, hse, hroom, translationPairs, hg]
      · simp [textMessageB, hse, hroom, translationPairs]
  · intro t rd g h1 h2 h3
    constructor
    · simp [getGuestLanguageInRoomA, h1, h2, h3]
    · simp [getGuestLanguageInRoomB, h1, h2, jsOrOS, jsOrS, h3]
  · intro t rd h1 h2
    constructor
    · simp [getGuestLanguageInRoomA, h1, h2]
    · simp [getGuestLanguageInRoomB, h1, h2, jsOrOS]

/-- Witness for C1 (amended), in the two-guest scenario: the receptionist
text message is directed `en-US → bn-IN`, which is exactly the variant A
resolver's answer; with a resolved guest language `bn-IN` both resolvers
return it; with a null resolved guest language variant B returns `hi-IN`. -/
theorem C1_staff_direction_witness :
    ("en-US", "bn-IN") = ("en-US", getGuestLanguageInRoomA twoGuestStateA "R") ∧
    getGuestLanguageInRoomA guestThenRecA "R" = "bn-IN" ∧
    getGuestLanguageInRoomB recOnlyB "R" = "hi-IN" := by
  have h := C1_staff_direction twoGuestStateA "rec" "R" "receptionist" none
    "Room is ready" (Except.ok ⟨some "hello", none⟩) (Except.ok "tx") (Or.inl rfl)
  refine ⟨?_, ?_, ?_⟩
  · exact h.2.1 ("en-US", "bn-IN") (by decide)
  · exact (h.2.2.2.2.1 guestThenRecA ⟨"Unknown Hotel", ["g", "rec"], some "bn-IN"⟩
      "bn-IN" (by decide) rfl (by decide)).1
  · exact (h.2.2.2.2.2 recOnlyB ⟨"Unknown Hotel", ["rec"], none⟩ (by decide) rfl).2

/-- C4 counterexample: after guest `g2` disconnects, the room's resolved
guest language is indeed null, but in variant A the subsequent receptionist
audio message resolves its target to `bn-IN` (the remaining guest's session
language), not to the default `hi-IN` as the claim demands. -/
theorem C4_guest_disconnect_counterexample :
    (twoGuestStateA.activeRooms "R").map RoomData.guestLanguage = some none ∧
    translationPairs (audioMessageA twoGuestStateA "rec" "R" "receptionist" none
        (Except.ok ⟨some "ready", none⟩) (Except.ok "tx")).1
      = [("en-US", "bn-IN")] ∧
    ("bn-IN" : String) ≠ "hi-IN" :=
  ⟨by decide, by decide, by decide⟩

/-- C4 (amended): after a guest's disconnect the room's resolved guest
language is null (both variants); a subsequent receptionist message then
resolves its target to the default `hi-IN` unconditionally in the part_000
variant, and in the server.js variant provided no guest member remains in
the room (otherwise that member's session language is used). -/
theorem C4_guest_disconnect_language (s : ServerState) (sid : String)
    (info : SessionInfo) (rd : RoomData) (hs : s.userRoles sid = some info)
    (hrole : info.role = "guest") (hr : s.activeRooms info.room = some rd) :
    ((disconnectS s sid).2.activeRooms info.room
        = some { rd with users := setDel sid rd.users, guestLanguage := none }) ∧
    (∀ (t : ServerState) room rdt, t.activeRooms room = some rdt →
        rdt.guestLanguage = none → getGuestLanguageInRoomB t room = "hi-IN") ∧
    (∀ (t : ServerState) room rdt, t.activeRooms room = some rdt →
        rdt.guestLanguage = none →
        (∀ x ∈ rdt.users, ∀ j, t.userRoles x = some j → j.role ≠ "guest") →
        getGuestLanguageInRoomA t room = "hi-IN") ∧
    (∀ (t : ServerState) sid2 room (lang : Option String) (txt ttext : String)
        (j : SessionInfo), t.userRoles sid2 = some j → j.room = room →
        translationPairs (textMessageA t sid2 room "receptionist" lang txt
            (Except.ok ttext)).1 = [("en-US", getGuestLanguageInRoomA t room)] ∧
        translationPairs (textMessageB t sid2 room "receptionist" lang txt
            (Except.ok ttext)).1 = [("en-US", getGuestLanguageInRoomB t room)]) := by
  have hns : ("receptionist" : String) ≠ "guest" := by decide
  refine ⟨?_, ?_, ?_, ?_⟩
  · rw [disconnectS_some s sid info rd hs hr]
    show (dropMember s sid info rd).activeRooms info.room = _
    rw [dropMember_rooms, if_pos rfl]
    simp [removeFromRoom, hrole]
  · intro t room rdt h1 h2
    simp [getGuestLanguageInRoomB, h1, h2, jsOrOS]
  · intro t room rdt h1 h2 h3
    have hfind := findGuestLangA_no_guest t rdt.users h3
    simp [getGuestLanguageInRoomA, h1, h2, hfind]
  · intro t sid2 room lang txt ttext j hj hjr
    constructor
    · simp [textMessageA, hj, hjr, translationPairs, hns]
    · simp [textMessageB, hj, hjr, translationPairs, hns]

/-- Witness for C4 (amended): guest `g` of `R` disconnects while the
receptionist stays; the room's resolved guest language is null, both
resolvers answer `hi-IN`, and the receptionist's next text message is
directed to the resolver's answer in both variants. -/
theorem C4_guest_disconnect_language_witness :
    (recOnlyA.activeRooms "R"
        = some { hotelName := "Unknown Hotel", users := ["rec"], guestLanguage := none }) ∧
    getGuestLanguageInRoomB recOnlyB "R" = "hi-IN" ∧
    getGuestLanguageInRoomA recOnlyA "R" = "hi-IN" ∧
    translationPairs (textMessageB recOnlyB "rec" "R" "receptionist" none "hi"
        (Except.ok "t")).1 = [("en-US", getGuestLanguageInRoomB recOnlyB "R")] := by
  have h := C4_guest_disconnect_language guestThenRecA "g" ⟨"R", "guest", "bn-IN"⟩
    ⟨"Unknown Hotel", ["g", "rec"], some "bn-IN"⟩ (by decide) rfl (by decide)
  refine ⟨?_, ?_, ?_, ?_⟩
  · exact h.1
  · exact h.2.1 recOnlyB "R" ⟨"Unknown Hotel", ["rec"], none⟩ (by decide) rfl
  · refine h.2.2.1 recOnlyA "R" ⟨"Unknown Hotel", ["rec"], none⟩ (by decide) rfl ?_
    intro x hx j hjx
    have hxr : x = "rec" := by
      simpa using hx
    subst hxr
    have hj : recOnlyA.userRoles "rec" = some ⟨"R", "receptionist", "en-US"⟩ := by decide
    rw [hj] at hjx
    injection hjx with e
    subst e
    decide
  · exact (h.2.2.2 recOnlyB "rec" "R" none "hi" "t" ⟨"R", "receptionist", "en-US"⟩
      (by decide) rfl).2

/-- C8 counterexample: an unauthorized text message is an attempt after
which the declared room receives no `processing_status` event at all — in
particular no terminal `complete`/`error` status. -/
theorem C8_terminal_status_counterexample :
    (textMessageA initState "c" "R" "guest" none "hello" (Except.ok "t")).1
      = [Emit.toSender (.errMessage "Not authorized for this room")] ∧
    (textMessageA initState "c" "R" "guest" none "hello" (Except.ok "t")).1.any
        (isTerminalStatusTo "R") = false :=
  ⟨by decide, by decide⟩

/-- C8 (amended): every authorized message attempt — the sender's session
exists and names the declared (non-empty) room — ends with a
`processing_status` broadcast to that room whose status is terminal
(`complete` on success, `error` on collaborator failure or empty
transcript) as the last emitted event, in both variants and for both
message kinds.  Unauthorized attempts produce only a private error. -/
theorem C8_terminal_status (s : ServerState) (sid room role : String)
    (lang : Option String) (text : String) (stt : Except String SttResult)
    (tr : Except String String) (i : SessionInfo)
    (hs : s.userRoles sid = some i) (hroom : i.room = room) (hne : room ≠ "") :
    ((lastEmit (audioMessageA s sid room role lang stt tr).1).any
        (isTerminalStatusTo room) = true) ∧
    ((lastEmit (textMessageA s sid room role lang text tr).1).any
        (isTerminalStatusTo room) = true) ∧
    ((lastEmit (audioMessageB s sid room role lang stt tr).1).any
        (isTerminalStatusTo room) = true) ∧
    ((lastEmit (textMessageB s sid room role lang text tr).1).any
        (isTerminalStatusTo room) = true) := by
  have hcr : catchRoomA s sid = room := by
    simp [catchRoomA, hs, jsOrOS, jsOrS, hroom, hne]
  have hcb : ∀ emsg, catchEmitsB s sid emsg
      = [Emit.toRoom room (.processingStatus .error none (some emsg))] := by
    intro emsg
    simp [catchEmitsB, hs, hroom, hne]
  refine ⟨?_, ?_, ?_, ?_⟩
  · rcases stt with emsg | res
    · simp [audioMessageA, hs, hroom, hcr, lastEmit, isTerminalStatusTo, isTerminal]
    · by_cases ht : transcriptMissingA res.transcript
      · simp [audioMessageA, hs, hroom, ht, lastEmit, isTerminalStatusTo, isTerminal]
      · rcases tr with emsg | ttext
        · simp [audioMessageA, hs, hroom, ht, hcr, lastEmit, isTerminalStatusTo,
            isTerminal]
        · simp [audioMessageA, hs, hroom, ht, lastEmit, isTerminalStatusTo, isTerminal]
  · rcases tr with emsg | ttext
    · simp [textMessageA, hs, hroom, hcr, lastEmit, isTerminalStatusTo, isTerminal]
    · simp [textMessageA, hs, hroom, lastEmit, isTerminalStatusTo, isTerminal]
  · rcases stt with emsg | res
    · simp [audioMessageB, hs, hroom, hcb, lastEmit, isTerminalStatusTo, isTerminal]
    · by_cases ht : strTrim (jsOrOS res.transcript "") = ""
      · simp [audioMessageB, hs, hroom, ht, lastEmit, isTerminalStatusTo, isTerminal]
      · rcases tr with emsg | ttext
        · simp [audioMessageB, hs, hroom, ht, hcb, lastEmit, isTerminalStatusTo,
            isTerminal]
        · simp [audioMessageB, hs, hroom, ht, lastEmit, isTerminalStatusTo, isTerminal]
  · rcases tr with emsg | ttext
    · simp [textMessageB, hs, hroom, hcb, lastEmit, isTerminalStatusTo, isTerminal]
    · simp [textMessageB, hs, hroom, lastEmit, isTerminalStatusTo, isTerminal]

/-- Witness for C8 (amended): authorized guest `g` in room `R`; the audio
collaborator fails and the text message succeeds — every attempt still ends
with a terminal status broadcast to `R`. -/
theorem C8_terminal_status_witness :
    ((lastEmit (audioMessageA guestThenRecA "g" "R" "guest" none
        (Except.error "boom") (Except.ok "t")).1).any (isTerminalStatusTo "R") = true) ∧
    ((lastEmit (textMessageA guestThenRecA "g" "R" "guest" none "hello"
        (Except.ok "t")).1).any (isTerminalStatusTo "R") = true) ∧
    ((lastEmit (audioMessageB guestThenRecA "g" "R" "guest" none
        (Except.error "boom") (Except.ok "t")).1).any (isTerminalStatusTo "R") = true) ∧
    ((lastEmit (textMessageB guestThenRecA "g" "R" "guest" none "hello"
        (Except.ok "t")).1).any (isTerminalStatusTo "R") = true) :=
  C8_terminal_status guestThenRecA "g" "R" "guest" none "hello" (Except.error "boom")
    (Except.ok "t") ⟨"R", "guest", "bn-IN"⟩ (by decide) rfl (by decide)

/-- C9 counterexample: in the part_000 variant a transcription result that
carries confidence exactly 0 is broadcast with confidence 0.95, so the
broadcast confidence does not equal the transcription result's confidence. -/
theorem C9_confidence_counterexample :
    translationConfs (audioMessageB oneGuestB "g" "R" "guest" none
        (Except.ok ⟨some "hello", some 0⟩) (Except.ok "t")).1 = [95/100] ∧
    (0 : ℚ) ≠ 95/100 := by
  constructor
  · rfl
  · norm_num

/-- C9 (amended): the confidence of every broadcast translation is exactly
1.0 for text messages in both variants; for audio messages it equals the
transcription confidence with default 0.95 when the result carries none in
server.js (`?? 0.95`), while part_000 (`|| 0.95`) additionally replaces a
present-but-zero confidence with 0.95. -/
theorem C9_confidence (s : ServerState) (sid room role : String)
    (lang : Option String) (text ttext : String) (res : SttResult)
    (i : SessionInfo) (hs : s.userRoles sid = some i) (hroom : i.room = room)
    (hA : transcriptMissingA res.transcript = false)
    (hB : strTrim (jsOrOS res.transcript "") ≠ "") :
    translationConfs (audioMessageA s sid room role lang (Except.ok res)
        (Except.ok ttext)).1 = [res.confidence.getD (95/100)] ∧
    translationConfs (audioMessageB s sid room role lang (Except.ok res)
        (Except.ok ttext)).1 = [jsOrRat res.confidence (95/100)] ∧
    translationConfs (textMessageA s sid room role lang text
        (Except.ok ttext)).1 = [1] ∧
    translationConfs (textMessageB s sid room role lang text
        (Except.ok ttext)).1 = [1] := by
  refine ⟨?_, ?_, ?_, ?_⟩
  · simp [audioMessageA, hs, hroom, hA, translationConfs]
  · simp [audioMessageB, hs, hroom, hB, translationConfs]
  · simp [textMessageA, hs, hroom, translationConfs]
  · simp [textMessageB, hs, hroom, translationConfs]

/-- Witness for C9 (amended): guest `g` sends audio with confidence 1/2 and
a text message; the broadcast confidences follow the amended rule. -/
theorem C9_confidence_witness :
    translationConfs (audioMessageA guestThenRecA "g" "R" "guest" none
        (Except.ok ⟨some "hello", some (1/2)⟩)
        (Except.ok "t")).1 = [(some (1/2 : ℚ)).getD (95/100)] ∧
    translationConfs (audioMessageB guestThenRecA "g" "R" "guest" none
        (Except.ok ⟨some "hello", some (1/2)⟩)
        (Except.ok "t")).1 = [jsOrRat (some (1/2)) (95/100)] ∧
    translationConfs (textMessageA guestThenRecA "g" "R" "guest" none "hello"
        (Except.ok "t")).1 = [1] ∧
    translationConfs (textMessageB guestThenRecA "g" "R" "guest" none "hello"
        (Except.ok "t")).1 = [1] :=
  C9_confidence guestThenRecA "g" "R" "guest" none "hello" "t"
    ⟨some "hello", some (1/2)⟩ ⟨"R", "guest", "bn-IN"⟩ (by decide) rfl
    (by decide) (by decide)
